import Mathlib

set_option linter.unusedVariables false

/-!
Verification development for the DB (Differentiable Binarization) postprocessing
stage implemented in `python_reference/db_postprocess.py`.

The repository's own logic (thresholding, the per-contour filter/score/simplify/
expand/map/clamp/orient loop of `db_postprocess`, the `unclip` helper and the
`is_clockwise` helper, and `compute_det_resize_meta`) is embedded directly.
Calls into external libraries (cv2.findContours, cv2.fillPoly, cv2.arcLength,
cv2.approxPolyDP, and the pyclipper offset engine `Execute`) are modelled as
components of an `ExtOps` record supplied by the caller; a `clipperExecute`
result of `none` models the engine raising an exception, which the source
catches in its `try/except` block.  `cv2.contourArea` and `pyclipper.Area` have
simple documented semantics (the Green/shoelace formula) and are embedded
concretely.  Floating point arithmetic is modelled by exact rationals.
-/

/-- Planar point with exact rational coordinates (models the float coordinates
used by the reference implementation). -/
abbrev Pt : Type := ℚ × ℚ

/-- Integer point, the coordinate type consumed by the pyclipper offset engine. -/
abbrev IPt : Type := ℤ × ℤ

/-- Probability map `prob_map`: a list of rows of rational probabilities. -/
abbrev Grid : Type := List (List ℚ)

/-- Binary mask produced by thresholding the probability map. -/
abbrev Mask : Type := List (List Bool)

/-- Floor of a rational number, computed by floor division of the numerator by
the denominator. -/
def ratFloor (q : ℚ) : ℤ := Int.fdiv q.num q.den

/-- Ceiling of a rational number. -/
def ratCeil (q : ℚ) : ℤ := -(ratFloor (-q))

/-- Minimum of two rational numbers. -/
def minQ (a b : ℚ) : ℚ := if a ≤ b then a else b

/-- Maximum of two rational numbers. -/
def maxQ (a b : ℚ) : ℚ := if a ≤ b then b else a

/-- Absolute value of a rational number. -/
def absQ (q : ℚ) : ℚ := if q < 0 then -q else q

/-- Python `int(...)` applied to a real value: truncation toward zero. -/
def pyInt (q : ℚ) : ℤ := if q < 0 then ratCeil q else ratFloor q

/-- Python 3 `round(...)` applied to a real value: round half to even. -/
def pyRound (q : ℚ) : ℤ :=
  let f := ratFloor q
  let r := q - (f : ℚ)
  if r < 1/2 then f
  else if 1/2 < r then f + 1
  else if f % 2 = 0 then f else f + 1

/-- Numpy `np.clip(v, lo, hi)`, as used on each coordinate in step 7 of
`db_postprocess`. -/
def clampQ (v lo hi : ℚ) : ℚ := minQ (maxQ v lo) hi

/-- Value of the probability map at a (row, column) pixel position, with a
default of 0 outside the grid (the reference only ever reads in-range pixels). -/
def gridAt (g : Grid) (rc : ℕ × ℕ) : ℚ := (g.getD rc.1 []).getD rc.2 0

/-- Cross-product sum of the shoelace formula over a vertex list, closed back to
the recorded first vertex `f`. -/
def crossSum : List Pt → Pt → ℚ
  | [], _ => 0
  | [a], f => a.1 * f.2 - f.1 * a.2
  | a :: b :: rest, f => (a.1 * b.2 - b.1 * a.2) + crossSum (b :: rest) f

/-- Closed shoelace sum of a polygon (twice its signed area), wrapping from the
last vertex back to the first. -/
def shoelace (c : List Pt) : ℚ :=
  match c with
  | [] => 0
  | a :: _ => crossSum c a

/-- Embeds `cv2.contourArea` (documented as the Green-formula area, returned as
an absolute value in its default non-oriented mode). -/
def contourArea (c : List Pt) : ℚ := absQ (shoelace c) / 2

/-- Cast of an integer point to a rational point. -/
def ipt2pt (p : IPt) : Pt := ((p.1 : ℚ), (p.2 : ℚ))

/-- Embeds `pyclipper.Area`: the signed shoelace area of an integer ring. -/
def clipperArea (p : List IPt) : ℚ := shoelace (p.map ipt2pt) / 2

/-- Non-wrapping shoelace-style sum used by `is_clockwise` in the source:
the sum of (x[i+1]-x[i])*(y[i+1]+y[i]) over consecutive vertex pairs only,
without the closing edge from the last vertex back to the first. -/
def snwSum : List Pt → ℚ
  | a :: b :: rest => (b.1 - a.1) * (b.2 + a.2) + snwSum (b :: rest)
  | _ => 0

/-- Embeds `is_clockwise`: the polygon is reported clockwise when the
non-wrapping shoelace sum is negative. -/
def is_clockwise (polygon : List Pt) : Bool := decide (snwSum polygon < 0)

/-- External operations used by the reference implementation.  Each field
models one library call of `db_postprocess.py`; `clipperExecute` returning
`none` models the pyclipper engine raising an exception. -/
structure ExtOps where
  findContours : Mask → List (List Pt)
  fillMask : List Pt → List (ℕ × ℕ)
  arcLength : List Pt → ℚ
  approxPolyDP : List Pt → ℚ → List Pt
  clipperExecute : List IPt → ℤ → Option (List (List IPt))

/-- Mean probability over the pixels of the rasterized contour mask: embeds
`prob_map[mask].mean()` where `mask` is produced by `cv2.fillPoly`. -/
def meanScore (ops : ExtOps) (g : Grid) (c : List Pt) : ℚ :=
  let px := ops.fillMask c
  (px.map (gridAt g)).sum / (px.length : ℚ)

/-- Simplified contour: embeds `cv2.approxPolyDP(contour, epsilon, True)` with
`epsilon = 0.005 * cv2.arcLength(contour, True)`. -/
def approxOf (ops : ExtOps) (c : List Pt) : List Pt :=
  ops.approxPolyDP c ((5/1000) * ops.arcLength c)

/-- Integer-scaled polygon handed to the offset engine: embeds
`[(int(x * SCALE), int(y * SCALE)) for x, y in polygon]` with SCALE = 1000. -/
def scaledPoly (polygon : List Pt) : List IPt :=
  polygon.map (fun p => (pyInt (p.1 * 1000), pyInt (p.2 * 1000)))

/-- Integer-scaled offset distance handed to the engine: embeds
`int(distance * SCALE)` with `distance = area * unclip_ratio / perimeter`. -/
def scaledDistance (ops : ExtOps) (polygon : List Pt) (unclip_ratio area : ℚ) : ℤ :=
  pyInt (area * unclip_ratio / ops.arcLength polygon * 1000)

/-- Embeds Python `max(expanded, key=lambda p: abs(pyclipper.Area(p)))`: scans
the remaining rings, replacing the current best only on a strictly larger key,
so the earliest maximal ring is kept. -/
def maxByAbsAreaAux (best : List IPt) : List (List IPt) → List IPt
  | [] => best
  | r :: rs =>
    if absQ (clipperArea best) < absQ (clipperArea r) then maxByAbsAreaAux r rs
    else maxByAbsAreaAux best rs

/-- Embeds `unclip(polygon, unclip_ratio, area)` from the source: fail on a
numerically zero perimeter, offset the integer-scaled polygon via the engine,
fail if the engine raises (`none`) or yields no rings, otherwise keep the ring
of greatest absolute area and scale it back down. -/
def unclip (ops : ExtOps) (polygon : List Pt) (unclip_ratio area : ℚ) : Option (List Pt) :=
  let perimeter := ops.arcLength polygon
  if perimeter < 1/1000000 then none
  else
    match ops.clipperExecute (scaledPoly polygon) (scaledDistance ops polygon unclip_ratio area) with
    | none => none
    | some [] => none
    | some (r :: rs) =>
      some ((maxByAbsAreaAux r rs).map (fun p => ((p.1 : ℚ) / 1000, (p.2 : ℚ) / 1000)))

/-- Embeds step 1 of `db_postprocess`: `binary = (prob_map > thresh)`.
A pixel is foreground exactly when its probability strictly exceeds the
threshold. -/
def binarize (g : Grid) (thresh : ℚ) : Mask :=
  g.map (fun row => row.map (fun p => decide (thresh < p)))

/-- Embeds steps 6 and 7 of `db_postprocess` on one vertex: divide both
coordinates by the scale factor, then clip x into [0, orig_w] and y into
[0, orig_h]. -/
def mapClamp (scale orig_h orig_w : ℚ) (p : Pt) : Pt :=
  (clampQ (p.1 / scale) 0 orig_w, clampQ (p.2 / scale) 0 orig_h)

/-- Embeds the orientation normalization of `db_postprocess`: reverse the
vertex sequence when `is_clockwise` reports counter-clockwise. -/
def orient (polygon : List Pt) : List Pt :=
  if is_clockwise polygon then polygon else polygon.reverse

/-- Per-contour body of the `db_postprocess` loop (steps 3 to 7 plus the
orientation normalization): `none` models every `continue`, `some p` the
polygon appended to the output list. -/
def processContour (ops : ExtOps) (g : Grid)
    (orig_h orig_w scale box_thresh unclip_ratio min_area : ℚ)
    (contour : List Pt) : Option (List Pt) :=
  let area := contourArea contour
  if area < min_area then none
  else if meanScore ops g contour < box_thresh then none
  else
    let approx := approxOf ops contour
    if approx.length < 3 then none
    else
      match unclip ops approx unclip_ratio area with
      | none => none
      | some expanded =>
        if expanded.length < 3 then none
        else some (orient (expanded.map (mapClamp scale orig_h orig_w)))

/-- Accumulating loop of `db_postprocess`: append each accepted polygon and
stop as soon as the accumulated count has reached `max_candidates` (the check
`len(polygons) >= max_candidates` runs after each append). -/
def dbLoop (f : List Pt → Option (List Pt)) (max_candidates : ℕ) :
    List (List Pt) → List (List Pt) → List (List Pt)
  | [], acc => acc
  | c :: rest, acc =>
    match f c with
    | none => dbLoop f max_candidates rest acc
    | some p =>
      let acc' := acc ++ [p]
      if max_candidates ≤ acc'.length then acc' else dbLoop f max_candidates rest acc'

/-- Contour-processing phase of `db_postprocess`, taking the discovered
contours explicitly. -/
def db_on_contours (ops : ExtOps) (g : Grid)
    (orig_h orig_w scale box_thresh unclip_ratio : ℚ) (max_candidates : ℕ)
    (min_area : ℚ) (contours : List (List Pt)) : List (List Pt) :=
  dbLoop (processContour ops g orig_h orig_w scale box_thresh unclip_ratio min_area)
    max_candidates contours []

/-- Embeds `db_postprocess`: binarize the probability map, discover contours,
then run the accumulating per-contour loop.  `resize_h` and `resize_w` mirror
the `resize_shape` parameter of the source, which the body never reads. -/
def db_postprocess (ops : ExtOps) (prob_map : Grid)
    (orig_h orig_w resize_h resize_w scale thresh box_thresh unclip_ratio : ℚ)
    (max_candidates : ℕ) (min_area : ℚ) : List (List Pt) :=
  db_on_contours ops prob_map orig_h orig_w scale box_thresh unclip_ratio
    max_candidates min_area (ops.findContours (binarize prob_map thresh))

/-- Embeds `compute_det_resize_meta(orig_h, orig_w, resize_long)` (default
`resize_long = 960`): returns (resize_h, resize_w, scale) with
scale = resize_long / max(orig_h, orig_w) and both dimensions given by
`int(round(dim * scale))`. -/
def compute_det_resize_meta (orig_h orig_w resize_long : ℕ) : ℤ × ℤ × ℚ :=
  let scale : ℚ := (resize_long : ℚ) / ((max orig_h orig_w : ℕ) : ℚ)
  (pyRound ((orig_h : ℚ) * scale), pyRound ((orig_w : ℚ) * scale), scale)

/-! Concrete scenario: a 5 by 6 probability map holding one solid high-probability
rectangle over columns 1 to 4 and rows 1 to 3, with the external operations
instantiated the way cv2 and pyclipper behave on it: one rectangular contour,
its filled pixel set, its closed perimeter 10, simplification keeping the four
corners, and the offset engine growing it by the computed distance 0.9 into an
octagon (round joins approximated by corner bevels). -/

/-- Probability map with a 4 by 3 block of probability 9/10 on a 1/20 background. -/
def gridC : Grid :=
  [[1/20, 1/20, 1/20, 1/20, 1/20, 1/20],
   [1/20, 9/10, 9/10, 9/10, 9/10, 1/20],
   [1/20, 9/10, 9/10, 9/10, 9/10, 1/20],
   [1/20, 9/10, 9/10, 9/10, 9/10, 1/20],
   [1/20, 1/20, 1/20, 1/20, 1/20, 1/20]]

/-- Outer contour of the block of `gridC`: corners (x, y) of the rectangle. -/
def contourR : List Pt := [(1, 1), (1, 3), (4, 3), (4, 1)]

/-- Pixels (row, column) filled by rasterizing `contourR`, boundary included. -/
def pxR : List (ℕ × ℕ) :=
  [(1, 1), (1, 2), (1, 3), (1, 4),
   (2, 1), (2, 2), (2, 3), (2, 4),
   (3, 1), (3, 2), (3, 3), (3, 4)]

/-- Offset-engine output for `contourR` grown by the scaled distance 900:
an octagon with bevelled corners, in engine coordinates (scaled by 1000). -/
def ringOct : List IPt :=
  [(100, 1000), (100, 3000), (1000, 3900), (4000, 3900),
   (4900, 3000), (4900, 1000), (4000, 100), (1000, 100)]

/-- External operations for the `gridC` scenario. -/
def opsC : ExtOps where
  findContours := fun _ => [contourR]
  fillMask := fun c => if c = contourR then pxR else []
  arcLength := fun c => if c = contourR then 10 else 1
  approxPolyDP := fun c _ => c
  clipperExecute := fun _ _ => some [ringOct]

/-- Output polygon of `db_postprocess` on the `opsC` scenario with defaults. -/
def polyOctC : List Pt :=
  [(1, 1/10), (4, 1/10), (49/10, 1), (49/10, 3),
   (4, 39/10), (1, 39/10), (1/10, 3), (1/10, 1)]

/-- Variant of the `gridC` scenario in which the offset engine returns a
rectangular ring dipping below the top image edge (negative coordinates), so
that clamping flattens its low edge exactly onto y = 0. -/
def opsC1 : ExtOps where
  findContours := fun _ => [contourR]
  fillMask := fun c => if c = contourR then pxR else []
  arcLength := fun c => if c = contourR then 10 else 1
  approxPolyDP := fun c _ => c
  clipperExecute := fun _ _ => some [[(-900, 3900), (-900, -900), (4900, -900), (4900, 3900)]]

/-- Output polygon of `db_postprocess` on the `opsC1` scenario: its bottom edge
was clamped flat to y = 0 and its non-wrapping shoelace sum is exactly 0. -/
def polyFlatC1 : List Pt := [(49/10, 39/10), (49/10, 0), (0, 0), (0, 39/10)]

/-! Concrete scenario for threshold monotonicity: a 5 by 12 probability map with
two high-probability blocks joined by a bridge of probability 7/20.  With
binarization threshold 2/5 the bridge is background and two components are
found; with threshold 3/10 the bridge is foreground and the components merge
into a single one.  `findContours` reads the bridge pixel of the mask to decide
which contour set the mask contains, exactly as connected-component analysis
would. -/

/-- Probability map with two 9/10 blocks joined by a 7/20 bridge. -/
def gridM : Grid :=
  [[1/20, 1/20, 1/20, 1/20, 1/20, 1/20, 1/20, 1/20, 1/20, 1/20, 1/20, 1/20],
   [1/20, 9/10, 9/10, 9/10, 9/10, 7/20, 7/20, 9/10, 9/10, 9/10, 9/10, 1/20],
   [1/20, 9/10, 9/10, 9/10, 9/10, 7/20, 7/20, 9/10, 9/10, 9/10, 9/10, 1/20],
   [1/20, 9/10, 9/10, 9/10, 9/10, 7/20, 7/20, 9/10, 9/10, 9/10, 9/10, 1/20],
   [1/20, 1/20, 1/20, 1/20, 1/20, 1/20, 1/20, 1/20, 1/20, 1/20, 1/20, 1/20]]

/-- Contour of the left block of `gridM`. -/
def contourA : List Pt := [(1, 1), (1, 3), (4, 3), (4, 1)]

/-- Contour of the right block of `gridM`. -/
def contourB : List Pt := [(7, 1), (7, 3), (10, 3), (10, 1)]

/-- Contour of the merged component of `gridM` at the lower threshold. -/
def contourM : List Pt := [(1, 1), (1, 3), (10, 3), (10, 1)]

/-- Filled pixels of `contourA`. -/
def pxA : List (ℕ × ℕ) :=
  [(1, 1), (1, 2), (1, 3), (1, 4), (2, 1), (2, 2), (2, 3), (2, 4),
   (3, 1), (3, 2), (3, 3), (3, 4)]

/-- Filled pixels of `contourB`. -/
def pxB : List (ℕ × ℕ) :=
  [(1, 7), (1, 8), (1, 9), (1, 10), (2, 7), (2, 8), (2, 9), (2, 10),
   (3, 7), (3, 8), (3, 9), (3, 10)]

/-- Filled pixels of `contourM` (bridge pixels included; its mean score is
79/100, above the default box threshold). -/
def pxM : List (ℕ × ℕ) :=
  [(1, 1), (1, 2), (1, 3), (1, 4), (1, 5), (1, 6), (1, 7), (1, 8), (1, 9), (1, 10),
   (2, 1), (2, 2), (2, 3), (2, 4), (2, 5), (2, 6), (2, 7), (2, 8), (2, 9), (2, 10),
   (3, 1), (3, 2), (3, 3), (3, 4), (3, 5), (3, 6), (3, 7), (3, 8), (3, 9), (3, 10)]

/-- External operations for the `gridM` scenario: the contours found depend on
whether the bridge pixel (row 2, column 5) is foreground in the mask. -/
def opsM : ExtOps where
  findContours := fun m => if (m.getD 2 []).getD 5 false then [contourM] else [contourA, contourB]
  fillMask := fun c =>
    if c = contourA then pxA else if c = contourB then pxB else
    if c = contourM then pxM else []
  arcLength := fun c => if c = contourM then 22 else 10
  approxPolyDP := fun c _ => c
  clipperExecute := fun sp _ => some [sp]

/-- Variant of `opsC` in which the offset engine yields a single two-vertex
ring. -/
def opsTwoVertex : ExtOps :=
  { opsC with clipperExecute := fun _ _ => some [[(0, 0), (1000, 0)]] }

/-- Variant of `opsC` in which the offset engine yields zero rings. -/
def opsNoRings : ExtOps :=
  { opsC with clipperExecute := fun _ _ => some [] }

/-- Variant of `opsC` in which the reported arc length is zero (degenerate
polygon with numerically zero perimeter). -/
def opsPerimZero : ExtOps :=
  { opsC with arcLength := fun _ => 0 }

/-- Variant of `opsC` in which the offset engine raises an exception, modelled
by `none`. -/
def opsRaise : ExtOps :=
  { opsC with clipperExecute := fun _ _ => none }

/-- Contribution of appending vertex `a` after the last vertex of `l` to the
non-wrapping shoelace sum. -/
def lastTerm (l : List Pt) (a : Pt) : ℚ :=
  match l.getLast? with
  | none => 0
  | some b => (a.1 - b.1) * (a.2 + b.2)

theorem snwSum_concat (l : List Pt) (a : Pt) :
    snwSum (l ++ [a]) = snwSum l + lastTerm l a := by
  induction l with
  | nil => simp [snwSum, lastTerm]
  | cons x xs ih =>
    cases xs with
    | nil => simp [snwSum, lastTerm]
    | cons y ys =>
      have h1 : (x :: y :: ys) ++ [a] = x :: ((y :: ys) ++ [a]) := by simp
      rw [h1]
      have h2 : snwSum (x :: ((y :: ys) ++ [a]))
          = (y.1 - x.1) * (y.2 + x.2) + snwSum ((y :: ys) ++ [a]) := by
        simp [snwSum]
      rw [h2, ih]
      have h3 : lastTerm (x :: y :: ys) a = lastTerm (y :: ys) a := by
        simp [lastTerm, List.getLast?_cons_cons]
      rw [h3]
      have h4 : snwSum (x :: y :: ys) = (y.1 - x.1) * (y.2 + x.2) + snwSum (y :: ys) := by
        simp [snwSum]
      rw [h4]
      ring

theorem snwSum_reverse (l : List Pt) : snwSum l.reverse = - snwSum l := by
  induction l with
  | nil => simp [snwSum]
  | cons x xs ih =>
    rw [List.reverse_cons, snwSum_concat, ih]
    cases xs with
    | nil => simp [snwSum, lastTerm]
    | cons y ys =>
      have h1 : lastTerm (y :: ys).reverse x = (x.1 - y.1) * (x.2 + y.2) := by
        simp [lastTerm, List.getLast?_reverse]
      have h2 : snwSum (x :: y :: ys) = (y.1 - x.1) * (y.2 + x.2) + snwSum (y :: ys) := by
        simp [snwSum]
      rw [h1, h2]
      ring

theorem clampQ_nonneg (v hi : ℚ) (h : 0 ≤ hi) : 0 ≤ clampQ v 0 hi := by
  unfold clampQ minQ maxQ
  split_ifs <;> linarith

theorem clampQ_le (v hi : ℚ) : clampQ v 0 hi ≤ hi := by
  unfold clampQ minQ maxQ
  split_ifs <;> linarith

theorem ratFloor_nonneg (q : ℚ) (h : 0 ≤ q) : 0 ≤ ratFloor q := by
  unfold ratFloor
  exact Int.fdiv_nonneg (Rat.num_nonneg.mpr h) (Int.ofNat_nonneg q.den)

theorem pyRound_nonneg (q : ℚ) (h : 0 ≤ q) : 0 ≤ pyRound q := by
  have hf : 0 ≤ ratFloor q := ratFloor_nonneg q h
  show 0 ≤ (if q - (ratFloor q : ℚ) < 1/2 then ratFloor q
    else if 1/2 < q - (ratFloor q : ℚ) then ratFloor q + 1
    else if ratFloor q % 2 = 0 then ratFloor q else ratFloor q + 1)
  split_ifs <;> omega

theorem snwSum_orient_nonpos (p : List Pt) : snwSum (orient p) ≤ 0 := by
  unfold orient is_clockwise
  split_ifs with h
  · rw [decide_eq_true_eq] at h
    linarith
  · rw [decide_eq_true_eq] at h
    rw [snwSum_reverse]
    linarith [not_lt.mp h]

theorem getD_map_eq {α β : Type} (f : α → β) (l : List α) (i : ℕ) (d : α) :
    (l.map f).getD i (f d) = f (l.getD i d) := by
  induction l generalizing i with
  | nil => simp
  | cons x xs ih =>
    cases i with
    | zero => simp
    | succ n => simp only [List.map_cons, List.getD_cons_succ]; exact ih n

theorem dbLoop_eq_take (f : List Pt → Option (List Pt)) (cap : ℕ) (cs : List (List Pt)) :
    ∀ acc, dbLoop f cap cs acc = acc ++ (cs.filterMap f).take (max (cap - acc.length) 1) := by
  induction cs with
  | nil => intro acc; simp [dbLoop]
  | cons c rest ih =>
    intro acc
    rw [dbLoop]
    cases hfc : f c with
    | none => rw [ih]; simp [List.filterMap_cons, hfc]
    | some p =>
      simp only [List.filterMap_cons, hfc]
      by_cases hcap : cap ≤ (acc ++ [p]).length
      · rw [if_pos hcap]
        have hm : max (cap - acc.length) 1 = 1 := by
          simp only [List.length_append, List.length_cons, List.length_nil] at hcap
          omega
        rw [hm]
        simp
      · rw [if_neg hcap]
        rw [ih]
        simp only [List.length_append, List.length_cons, List.length_nil] at hcap ⊢
        have h2 : max (cap - (acc.length + 1)) 1 = cap - acc.length - 1 := by omega
        have h3 : max (cap - acc.length) 1 = cap - acc.length := by omega
        rw [h2, h3]
        rw [List.append_assoc]
        congr 1
        have h4 : cap - acc.length = (cap - acc.length - 1) + 1 := by omega
        rw [h4, List.take_succ_cons]
        simp

theorem db_on_contours_eq (ops : ExtOps) (g : Grid)
    (oh ow s bt ur : ℚ) (cap : ℕ) (ma : ℚ) (cs : List (List Pt)) :
    db_on_contours ops g oh ow s bt ur cap ma cs
      = (cs.filterMap (processContour ops g oh ow s bt ur ma)).take (max cap 1) := by
  unfold db_on_contours
  rw [dbLoop_eq_take]
  simp

theorem db_postprocess_eq (ops : ExtOps) (g : Grid)
    (oh ow rh rw s t bt ur : ℚ) (cap : ℕ) (ma : ℚ) :
    db_postprocess ops g oh ow rh rw s t bt ur cap ma
      = ((ops.findContours (binarize g t)).filterMap
          (processContour ops g oh ow s bt ur ma)).take (max cap 1) := by
  unfold db_postprocess
  rw [db_on_contours_eq]

theorem processContour_eq_some (ops : ExtOps) (g : Grid)
    (oh ow s bt ur ma : ℚ) (c : List Pt) (p : List Pt)
    (h : processContour ops g oh ow s bt ur ma c = some p) :
    ∃ ep, unclip ops (approxOf ops c) ur (contourArea c) = some ep ∧ 3 ≤ ep.length ∧
      p = orient (ep.map (mapClamp s oh ow)) := by
  simp only [processContour] at h
  split_ifs at h with h1 h2 h3
  cases hu : unclip ops (approxOf ops c) ur (contourArea c) with
  | none => rw [hu] at h; exact Option.noConfusion h
  | some ep =>
    rw [hu] at h
    have h' : (if ep.length < 3 then none
        else some (orient (ep.map (mapClamp s oh ow)))) = some p := h
    by_cases hlen : ep.length < 3
    · rw [if_pos hlen] at h'; exact Option.noConfusion h'
    · rw [if_neg hlen] at h'
      exact ⟨ep, rfl, by omega, (Option.some.inj h').symm⟩

theorem processContour_none_of_area (ops : ExtOps) (g : Grid)
    (oh ow s bt ur ma : ℚ) (c : List Pt) (h : contourArea c < ma) :
    processContour ops g oh ow s bt ur ma c = none := by
  simp only [processContour]
  rw [if_pos h]

theorem processContour_none_of_score (ops : ExtOps) (g : Grid)
    (oh ow s bt ur ma : ℚ) (c : List Pt)
    (ha : ¬ contourArea c < ma) (h : meanScore ops g c < bt) :
    processContour ops g oh ow s bt ur ma c = none := by
  simp only [processContour]
  rw [if_neg ha, if_pos h]

theorem processContour_none_of_unclip_fail (ops : ExtOps) (g : Grid)
    (oh ow s bt ur ma : ℚ) (c : List Pt)
    (h : unclip ops (approxOf ops c) ur (contourArea c) = none ∨
      ∃ ep, unclip ops (approxOf ops c) ur (contourArea c) = some ep ∧ ep.length < 3) :
    processContour ops g oh ow s bt ur ma c = none := by
  simp only [processContour]
  split_ifs with h1 h2 h3
  · rfl
  · rfl
  · rfl
  · cases h with
    | inl hn => rw [hn]
    | inr hs =>
      obtain ⟨ep, hep, hlen⟩ := hs
      rw [hep]
      exact if_pos hlen

theorem filterMap_length_mono (f₁ f₂ : List Pt → Option (List Pt))
    (hmono : ∀ c p, f₁ c = some p → f₂ c = some p) (cs : List (List Pt)) :
    (cs.filterMap f₁).length ≤ (cs.filterMap f₂).length := by
  induction cs with
  | nil => simp
  | cons c rest ih =>
    cases hc1 : f₁ c with
    | none =>
      cases hc2 : f₂ c with
      | none => simpa [List.filterMap_cons, hc1, hc2] using ih
      | some p => simp only [List.filterMap_cons, hc1, hc2, List.length_cons]; omega
    | some p =>
      have hc2 : f₂ c = some p := hmono c p hc1
      simp only [List.filterMap_cons, hc1, hc2, List.length_cons]
      omega

theorem processContour_mono_bt (ops : ExtOps) (g : Grid)
    (oh ow s bt₁ bt₂ ur ma : ℚ) (hbt : bt₂ ≤ bt₁) (c : List Pt) (p : List Pt)
    (h : processContour ops g oh ow s bt₁ ur ma c = some p) :
    processContour ops g oh ow s bt₂ ur ma c = some p := by
  simp only [processContour] at h ⊢
  split_ifs at h with h1 h2 h3
  rw [if_neg h1]
  have h2' : ¬ meanScore ops g c < bt₂ := by
    rw [not_lt] at h2 ⊢
    linarith
  rw [if_neg h2', if_neg h3]
  exact h

theorem maxByAbsAreaAux_mem (rs : List (List IPt)) :
    ∀ best, maxByAbsAreaAux best rs = best ∨ maxByAbsAreaAux best rs ∈ rs := by
  induction rs with
  | nil => intro best; left; rfl
  | cons r rest ih =>
    intro best
    rw [maxByAbsAreaAux]
    split_ifs with h
    · rcases ih r with h1 | h1
      · right; rw [h1]; exact List.mem_cons_self r rest
      · right; exact List.mem_cons_of_mem r h1
    · rcases ih best with h1 | h1
      · left; exact h1
      · right; exact List.mem_cons_of_mem r h1

theorem maxByAbsAreaAux_le (rs : List (List IPt)) :
    ∀ best, absQ (clipperArea best) ≤ absQ (clipperArea (maxByAbsAreaAux best rs)) := by
  induction rs with
  | nil => intro best; exact le_refl _
  | cons r rest ih =>
    intro best
    rw [maxByAbsAreaAux]
    split_ifs with h
    · exact le_trans (le_of_lt h) (ih r)
    · exact ih best

theorem maxByAbsAreaAux_max (rs : List (List IPt)) :
    ∀ best r, r ∈ best :: rs →
      absQ (clipperArea r) ≤ absQ (clipperArea (maxByAbsAreaAux best rs)) := by
  induction rs with
  | nil =>
    intro best r hr
    rcases List.mem_cons.mp hr with h | h
    · rw [h]; exact le_refl _
    · exact absurd h (List.not_mem_nil r)
  | cons q rest ih =>
    intro best r hr
    rw [maxByAbsAreaAux]
    rcases List.mem_cons.mp hr with h | h
    · subst h
      split_ifs with hlt
      · exact le_trans (le_of_lt hlt) (maxByAbsAreaAux_le rest q)
      · exact maxByAbsAreaAux_le rest r
    · rcases List.mem_cons.mp h with h2 | h2
      · subst h2
        split_ifs with hlt
        · exact maxByAbsAreaAux_le rest r
        · exact le_trans (not_lt.mp hlt) (maxByAbsAreaAux_le rest best)
      · split_ifs with hlt
        · exact ih q r (List.mem_cons_of_mem q h2)
        · exact ih best r (List.mem_cons_of_mem best h2)

/-- C8: for every probability map and every threshold, the binarization step of
`db_postprocess` classifies a pixel as foreground if and only if its
probability strictly exceeds the threshold; a pixel whose value equals the
threshold is background.  The step is a pure total function of the grid. -/
theorem c8_binarize_strict_iff (g : Grid) (t : ℚ) (i j : ℕ)
    (hi : i < g.length) (hj : j < (g.getD i []).length) :
    ((binarize g t).getD i []).getD j false = true ↔ t < (g.getD i []).getD j 0 := by
  have h1 : (binarize g t).getD i [] = (g.getD i []).map (fun p => decide (t < p)) := by
    have h := getD_map_eq (fun row => row.map (fun p => decide (t < p))) g i []
    simpa [binarize] using h
  rw [h1]
  rw [List.getD_eq_getElem ((g.getD i []).map (fun p => decide (t < p))) false
    (by simpa using hj)]
  rw [List.getD_eq_getElem (g.getD i []) 0 hj]
  rw [List.getElem_map]
  exact decide_eq_true_iff

/-- C8 witness: on the concrete map `gridC` with the default threshold 3/10,
the pixel at row 1, column 1 (probability 9/10) is foreground. -/
theorem c8_binarize_strict_iff_witness :
    1 < gridC.length ∧ 1 < (gridC.getD 1 []).length ∧
      (((binarize gridC (3/10)).getD 1 []).getD 1 false = true ↔
        (3/10 : ℚ) < (gridC.getD 1 []).getD 1 0) :=
  ⟨by decide, by decide,
    c8_binarize_strict_iff gridC (3/10) 1 1 (by decide) (by decide)⟩

/-- C6 counterexample: the claim asserts both resized dimensions are positive
for all positive inputs, but `compute_det_resize_meta 1 10000 960` scales
height 1 by 960/10000 = 0.096, which rounds to 0: the resized height is not a
positive integer. -/
theorem c6_counterexample :
    compute_det_resize_meta 1 10000 960 = (0, 960, 12/125) ∧
      ¬ (0 < (compute_det_resize_meta 1 10000 960).1) := by
  constructor
  · with_unfolding_all decide
  · with_unfolding_all decide

/-- C6 amended: for positive inputs, `compute_det_resize_meta` returns
scaleFactor = targetLongSide / max(originalHeight, originalWidth) and the two
dimensions rounded (Python round, half to even) from originalDim times the
scale factor; both rounded dimensions are nonnegative, but they can be zero
for extreme aspect ratios, so positivity is not guaranteed. -/
theorem c6_resize_meta_formula (h w L : ℕ) (hh : 0 < h) (hw : 0 < w) (hL : 0 < L) :
    compute_det_resize_meta h w L
      = (pyRound ((h : ℚ) * ((L : ℚ) / ((max h w : ℕ) : ℚ))),
         pyRound ((w : ℚ) * ((L : ℚ) / ((max h w : ℕ) : ℚ))),
         (L : ℚ) / ((max h w : ℕ) : ℚ)) ∧
      0 ≤ (compute_det_resize_meta h w L).1 ∧
      0 ≤ (compute_det_resize_meta h w L).2.1 := by
  refine ⟨rfl, ?_, ?_⟩
  · simp only [compute_det_resize_meta]
    exact pyRound_nonneg _ (by positivity)
  · simp only [compute_det_resize_meta]
    exact pyRound_nonneg _ (by positivity)

/-- C6 witness: the amended theorem applied at the concrete shape 2 by 3 with
target long side 4. -/
theorem c6_resize_meta_formula_witness :
    0 < 2 ∧ 0 ≤ (compute_det_resize_meta 2 3 4).1 ∧ 0 ≤ (compute_det_resize_meta 2 3 4).2.1 :=
  ⟨by norm_num, (c6_resize_meta_formula 2 3 4 (by norm_num) (by norm_num) (by norm_num)).2.1,
    (c6_resize_meta_formula 2 3 4 (by norm_num) (by norm_num) (by norm_num)).2.2⟩

/-- C2: every polygon returned by `db_postprocess` has at least 3 vertices and
was produced, from the expanded polygon delivered by `unclip`, by dividing
each coordinate by the scale factor and clamping x into [0, originalWidth]
and y into [0, originalHeight] per vertex (followed only by the orientation
normalization, which permutes vertices); hence, for a positive scale factor
and nonnegative image dimensions, all output coordinates lie within the
original image bounds. -/
theorem c2_output_vertices_bounds (ops : ExtOps) (g : Grid)
    (oh ow rh rw s t bt ur : ℚ) (cap : ℕ) (ma : ℚ)
    (hs : 0 < s) (hoh : 0 ≤ oh) (how : 0 ≤ ow) (p : List Pt)
    (hp : p ∈ db_postprocess ops g oh ow rh rw s t bt ur cap ma) :
    3 ≤ p.length ∧
      (∀ v ∈ p, 0 ≤ v.1 ∧ v.1 ≤ ow ∧ 0 ≤ v.2 ∧ v.2 ≤ oh) ∧
      ∃ c ep, unclip ops (approxOf ops c) ur (contourArea c) = some ep ∧
        p = orient (ep.map (mapClamp s oh ow)) := by
  rw [db_postprocess_eq] at hp
  have hp2 := List.take_subset _ _ hp
  obtain ⟨c, hc, hcp⟩ := List.mem_filterMap.mp hp2
  obtain ⟨ep, hu, hlen, hpe⟩ := processContour_eq_some ops g oh ow s bt ur ma c p hcp
  refine ⟨?_, ?_, c, ep, hu, hpe⟩
  · rw [hpe]
    unfold orient
    split_ifs
    · simpa using hlen
    · simpa using hlen
  · intro v hv
    rw [hpe] at hv
    unfold orient at hv
    have hv2 : v ∈ ep.map (mapClamp s oh ow) := by
      split_ifs at hv with h
      · exact hv
      · exact List.mem_reverse.mp hv
    obtain ⟨w, hw, hwv⟩ := List.mem_map.mp hv2
    rw [← hwv]
    unfold mapClamp
    exact ⟨clampQ_nonneg _ _ how, clampQ_le _ _, clampQ_nonneg _ _ hoh, clampQ_le _ _⟩

/-- C2 witness: the output polygon of the concrete `opsC` scenario has at
least 3 vertices. -/
theorem c2_output_vertices_bounds_witness :
    (0 : ℚ) < 1 ∧ (0 : ℚ) ≤ 5 ∧ (0 : ℚ) ≤ 6 ∧ 3 ≤ polyOctC.length :=
  ⟨by norm_num, by norm_num, by norm_num,
    (c2_output_vertices_bounds opsC gridC 5 6 5 6 1 (3/10) (6/10) (3/2) 1000 1
      (by norm_num) (by norm_num) (by norm_num) polyOctC
      (by with_unfolding_all decide)).1⟩

/-- C1 counterexample: the claim asserts the non-wrapping shoelace sum of every
output polygon is negative, but in the `opsC1` scenario the offset ring dips
below the image edge, clamping flattens its low edge onto y = 0, and the
emitted polygon has non-wrapping shoelace sum exactly 0 (not negative):
`is_clockwise` reports counter-clockwise both before and after the reversal
the orchestrator performs. -/
theorem c1_counterexample :
    db_postprocess opsC1 gridC 5 6 5 6 1 (3/10) (6/10) (3/2) 1000 1 = [polyFlatC1] ∧
      ¬ (snwSum polyFlatC1 < 0) := by
  constructor
  · with_unfolding_all decide
  · with_unfolding_all decide

/-- C1 amended: every polygon returned by `db_postprocess` has a non-positive
(rather than strictly negative) non-wrapping shoelace sum, and each output
polygon is either a mapped polygon that `is_clockwise` already reported
clockwise, or the reversal of a mapped polygon that `is_clockwise` reported
counter-clockwise. -/
theorem c1_output_orientation (ops : ExtOps) (g : Grid)
    (oh ow rh rw s t bt ur : ℚ) (cap : ℕ) (ma : ℚ) (p : List Pt)
    (hp : p ∈ db_postprocess ops g oh ow rh rw s t bt ur cap ma) :
    snwSum p ≤ 0 ∧
      ∃ q, (is_clockwise q = true ∧ p = q) ∨ (is_clockwise q = false ∧ p = q.reverse) := by
  rw [db_postprocess_eq] at hp
  have hp2 := List.take_subset _ _ hp
  obtain ⟨c, hc, hcp⟩ := List.mem_filterMap.mp hp2
  obtain ⟨ep, hu, hlen, hpe⟩ := processContour_eq_some ops g oh ow s bt ur ma c p hcp
  constructor
  · rw [hpe]
    exact snwSum_orient_nonpos _
  · refine ⟨ep.map (mapClamp s oh ow), ?_⟩
    rw [hpe]
    cases hb : is_clockwise (ep.map (mapClamp s oh ow)) with
    | true => left; exact ⟨rfl, by simp [orient, hb]⟩
    | false => right; exact ⟨rfl, by simp [orient, hb]⟩

/-- C1 witness: the amended theorem applied to the output polygon of the
concrete `opsC` scenario. -/
theorem c1_output_orientation_witness :
    snwSum polyOctC ≤ 0 ∧
      ∃ q, (is_clockwise q = true ∧ polyOctC = q) ∨
        (is_clockwise q = false ∧ polyOctC = q.reverse) :=
  c1_output_orientation opsC gridC 5 6 5 6 1 (3/10) (6/10) (3/2) 1000 1 polyOctC
    (by with_unfolding_all decide)

/-- C3 counterexample: the claim asserts the output never exceeds
maxCandidates polygons for every input, but with maxCandidates = 0 the cap is
checked only after an append, so one polygon is still emitted. -/
theorem c3_counterexample :
    ¬ ((db_postprocess opsC gridC 5 6 5 6 1 (3/10) (6/10) (3/2) 0 1).length ≤ 0) := by
  with_unfolding_all decide

/-- C3 amended: whenever maxCandidates is at least 1, `db_postprocess` returns
at most maxCandidates polygons, accumulating accepted polygons in discovery
order and stopping once the count reaches the cap; with maxCandidates = 0 a
single polygon can still be emitted because the cap is only checked after an
append. -/
theorem c3_output_capped (ops : ExtOps) (g : Grid)
    (oh ow rh rw s t bt ur : ℚ) (cap : ℕ) (ma : ℚ) (hcap : 1 ≤ cap) :
    (db_postprocess ops g oh ow rh rw s t bt ur cap ma).length ≤ cap := by
  rw [db_postprocess_eq]
  rw [List.length_take]
  omega

/-- C3 witness: the amended cap theorem applied to the concrete `opsC`
scenario with the default cap 1000. -/
theorem c3_output_capped_witness :
    1 ≤ 1000 ∧
      (db_postprocess opsC gridC 5 6 5 6 1 (3/10) (6/10) (3/2) 1000 1).length ≤ 1000 :=
  ⟨by norm_num,
    c3_output_capped opsC gridC 5 6 5 6 1 (3/10) (6/10) (3/2) 1000 1 (by norm_num)⟩

/-- C4 counterexample: the claim asserts `unclip` itself fails when the
selected ring has fewer than 3 vertices, but when the offset engine yields a
single two-vertex ring, `unclip` returns that ring as a polygon instead of
failing; the fewer-than-3-vertices rejection is performed by the caller. -/
theorem c4_counterexample :
    unclip opsTwoVertex contourR (3/2) 6 = some [(0, 0), (1, 0)] ∧
      ([((0 : ℚ), (0 : ℚ)), ((1 : ℚ), (0 : ℚ))].length < 3) := by
  constructor
  · with_unfolding_all decide
  · decide

/-- C4 amended: `unclip` fails (returns `none`) when the reported perimeter is
below 1e-6, and when the offset engine raises or yields zero rings; otherwise
it hands the engine the integer-scaled polygon and the integer-scaled distance
area times unclipRatio over perimeter, and returns (scaled back down) the ring
of greatest absolute area, the earliest among ties — even when that ring has
fewer than 3 vertices; the fewer-than-3-vertices rejection is performed by the
caller `db_postprocess`, which skips the region. -/
theorem c4_unclip_behaviour (ops : ExtOps) (polygon : List Pt) (ur area : ℚ) :
    (ops.arcLength polygon < 1/1000000 → unclip ops polygon ur area = none) ∧
    (ops.clipperExecute (scaledPoly polygon) (scaledDistance ops polygon ur area) = some [] →
      unclip ops polygon ur area = none) ∧
    (∀ p, unclip ops polygon ur area = some p →
      ¬ (ops.arcLength polygon < 1/1000000) ∧
      ∃ r rs, ops.clipperExecute (scaledPoly polygon) (scaledDistance ops polygon ur area)
          = some (r :: rs) ∧
        maxByAbsAreaAux r rs ∈ r :: rs ∧
        (∀ r' ∈ r :: rs, absQ (clipperArea r') ≤ absQ (clipperArea (maxByAbsAreaAux r rs))) ∧
        p = (maxByAbsAreaAux r rs).map (fun q => ((q.1 : ℚ) / 1000, (q.2 : ℚ) / 1000))) := by
  refine ⟨?_, ?_, ?_⟩
  · intro h
    simp only [unclip]
    rw [if_pos h]
  · intro h
    simp only [unclip]
    split_ifs with h1
    · rfl
    · rw [h]
  · intro p hp
    simp only [unclip] at hp
    split_ifs at hp with h1
    refine ⟨h1, ?_⟩
    cases he : ops.clipperExecute (scaledPoly polygon) (scaledDistance ops polygon ur area) with
    | none => rw [he] at hp; exact Option.noConfusion hp
    | some rings =>
      rw [he] at hp
      cases rings with
      | nil => exact Option.noConfusion hp
      | cons r rs =>
        have hp' : some ((maxByAbsAreaAux r rs).map
            (fun q => ((q.1 : ℚ) / 1000, (q.2 : ℚ) / 1000))) = some p := hp
        refine ⟨r, rs, rfl, ?_, ?_, (Option.some.inj hp').symm⟩
        · rcases maxByAbsAreaAux_mem rs r with h | h
          · rw [h]; exact List.mem_cons_self r rs
          · exact List.mem_cons_of_mem r h
        · intro r' hr'
          exact maxByAbsAreaAux_max rs r r' hr'

/-- C4 witness: on the degenerate scenario whose reported arc length is zero,
the amended theorem yields the failure result. -/
theorem c4_unclip_behaviour_witness :
    opsPerimZero.arcLength contourR < 1/1000000 ∧
      unclip opsPerimZero contourR (3/2) 6 = none :=
  ⟨by with_unfolding_all decide,
    (c4_unclip_behaviour opsPerimZero contourR (3/2) 6).1 (by with_unfolding_all decide)⟩

/-- C10: `unclip` is total in the embedding (it returns an optional vertex
list), and an offset-engine failure — the pyclipper exception, modelled by the
oracle returning `none` — is converted into the `None` failure result rather
than propagated. -/
theorem c10_unclip_total (ops : ExtOps) (polygon : List Pt) (ur area : ℚ)
    (h : ops.clipperExecute (scaledPoly polygon) (scaledDistance ops polygon ur area) = none) :
    unclip ops polygon ur area = none := by
  simp only [unclip]
  split_ifs with h1
  · rfl
  · rw [h]

/-- C10 witness: on the scenario whose offset engine raises, `unclip` returns
the failure result. -/
theorem c10_unclip_total_witness :
    opsRaise.clipperExecute (scaledPoly contourR) (scaledDistance opsRaise contourR (3/2) 6)
        = none ∧
      unclip opsRaise contourR (3/2) 6 = none :=
  ⟨rfl, c10_unclip_total opsRaise contourR (3/2) 6 rfl⟩

/-- C5: a failure of the unclip expansion for one region — the `None` result
(which also models the caught exception) or a result with fewer than 3
vertices — causes exactly that region to be dropped from the contour list:
the output equals the output on the remaining regions, which are all still
processed. -/
theorem c5_region_skip (ops : ExtOps) (g : Grid)
    (oh ow s bt ur : ℚ) (cap : ℕ) (ma : ℚ)
    (pre post : List (List Pt)) (c : List Pt)
    (h : unclip ops (approxOf ops c) ur (contourArea c) = none ∨
      ∃ ep, unclip ops (approxOf ops c) ur (contourArea c) = some ep ∧ ep.length < 3) :
    db_on_contours ops g oh ow s bt ur cap ma (pre ++ c :: post)
      = db_on_contours ops g oh ow s bt ur cap ma (pre ++ post) := by
  rw [db_on_contours_eq, db_on_contours_eq]
  rw [List.filterMap_append, List.filterMap_append,
    List.filterMap_cons_none (processContour_none_of_unclip_fail ops g oh ow s bt ur ma c h)]

/-- C5 witness: in the zero-rings scenario, unclip fails for the contour and
the contour list reduces to the empty one. -/
theorem c5_region_skip_witness :
    unclip opsNoRings (approxOf opsNoRings contourR) (3/2) (contourArea contourR) = none ∧
      db_on_contours opsNoRings gridC 5 6 1 (6/10) (3/2) 1000 1 [contourR]
        = db_on_contours opsNoRings gridC 5 6 1 (6/10) (3/2) 1000 1 [] :=
  ⟨by with_unfolding_all decide,
    c5_region_skip opsNoRings gridC 5 6 1 (6/10) (3/2) 1000 1 [] [] contourR
      (Or.inl (by with_unfolding_all decide))⟩

/-- C7: a region is rejected when its shoelace area (absolute value, as
computed by contourArea) is below minArea; a region surviving the area check
is rejected when the mean probability over its rasterized interior (boundary
pixels included, as delivered by the fill oracle) is below boxThresh; and the
output of `db_postprocess` is the filtered contour list in discovery order,
truncated at the candidate cap. -/
theorem c7_filter_score_order (ops : ExtOps) (g : Grid)
    (oh ow rh rw s t bt ur : ℚ) (cap : ℕ) (ma : ℚ) :
    (∀ c, contourArea c < ma → processContour ops g oh ow s bt ur ma c = none) ∧
    (∀ c, ¬ (contourArea c < ma) → meanScore ops g c < bt →
      processContour ops g oh ow s bt ur ma c = none) ∧
    db_postprocess ops g oh ow rh rw s t bt ur cap ma
      = ((ops.findContours (binarize g t)).filterMap
          (processContour ops g oh ow s bt ur ma)).take (max cap 1) :=
  ⟨fun c h => processContour_none_of_area ops g oh ow s bt ur ma c h,
   fun c h1 h2 => processContour_none_of_score ops g oh ow s bt ur ma c h1 h2,
   db_postprocess_eq ops g oh ow rh rw s t bt ur cap ma⟩

/-- C7 witness: with minArea raised to 10, the concrete contour of area 6 is
rejected. -/
theorem c7_filter_score_order_witness :
    contourArea contourR < 10 ∧
      processContour opsC gridC 5 6 1 (6/10) (3/2) 10 contourR = none :=
  ⟨by with_unfolding_all decide,
    (c7_filter_score_order opsC gridC 5 6 5 6 1 (3/10) (6/10) (3/2) 1000 10).1 contourR
      (by with_unfolding_all decide)⟩

set_option maxRecDepth 4000 in
/-- C9 counterexample: the claim allows the binarization threshold to be
lowered together with the box score threshold, but lowering the binarization
threshold from 2/5 to 3/10 turns the 7/20 bridge of `gridM` into foreground,
merging two accepted components into one: the run with the lower threshold
returns fewer polygons (1 instead of 2) at the same box score threshold. -/
theorem c9_counterexample :
    (db_postprocess opsM gridM 5 12 5 12 1 (3/10) (6/10) (3/2) 1000 1).length = 1 ∧
      (db_postprocess opsM gridM 5 12 5 12 1 (2/5) (6/10) (3/2) 1000 1).length = 2 := by
  constructor
  · with_unfolding_all decide
  · with_unfolding_all decide

/-- C9 amended: with the binarization threshold (and every other input) held
fixed — hence an identical mask and identical discovered contours — the number
of polygons returned by `db_postprocess` is antitone in the box score
threshold: lowering boxScoreThreshold alone never decreases the output count. -/
theorem c9_count_antitone_box_thresh (ops : ExtOps) (g : Grid)
    (oh ow rh rw s t bt₁ bt₂ ur : ℚ) (cap : ℕ) (ma : ℚ) (hbt : bt₂ ≤ bt₁) :
    (db_postprocess ops g oh ow rh rw s t bt₁ ur cap ma).length ≤
      (db_postprocess ops g oh ow rh rw s t bt₂ ur cap ma).length := by
  rw [db_postprocess_eq, db_postprocess_eq]
  rw [List.length_take, List.length_take]
  have hmono := filterMap_length_mono
    (processContour ops g oh ow s bt₁ ur ma) (processContour ops g oh ow s bt₂ ur ma)
    (fun c p h => processContour_mono_bt ops g oh ow s bt₁ bt₂ ur ma hbt c p h)
    (ops.findContours (binarize g t))
  omega

/-- C9 witness: the antitone theorem applied on the concrete `opsC` scenario,
lowering the box score threshold from 6/10 to 1/2. -/
theorem c9_count_antitone_box_thresh_witness :
    (1/2 : ℚ) ≤ 6/10 ∧
      (db_postprocess opsC gridC 5 6 5 6 1 (3/10) (6/10) (3/2) 1000 1).length ≤
        (db_postprocess opsC gridC 5 6 5 6 1 (3/10) (1/2) (3/2) 1000 1).length :=
  ⟨by norm_num,
    c9_count_antitone_box_thresh opsC gridC 5 6 5 6 1 (3/10) (6/10) (1/2) (3/2) 1000 1
      (by norm_num)⟩
